import Mathlib

/-!
Verification of the ACE-Step utility scripts
(`scripts/build_lora_dataset.py` and `scripts/download_channel_mp3.py`).

The scripts are sequential filesystem pipelines that shell out to external
binaries.  We embed them shallowly: the relevant directory states and the
external transcoder are passed in explicitly, and the pipeline is a pure
fold over the (sorted) audio-directory listing that threads the mutable
state the Python code touches (the accumulated record list, the set of
converted files, the transcoder invocations, the emitted diagnostics, and
the directory-creation side effects).
-/

namespace AceStep

/-- Python `str.strip()` whitespace test, restricted to the ASCII whitespace
characters Python strips (`' '`, `\t`, `\n`, `\v`, `\f`, `\r`).  The scripts
only ever strip lyric text and tag fragments, for which this is the
behaviour of CPython's `str.strip()`. -/
def pyIsSpace (c : Char) : Bool :=
  c = ' ' || c = '\t' || c = '\n' || c = '\x0b' || c = '\x0c' || c = '\r'

/-- Python `str.strip()`: drop leading and trailing whitespace. -/
def pyStrip (s : String) : String :=
  String.mk (((s.toList.dropWhile pyIsSpace).reverse.dropWhile pyIsSpace).reverse)

/-- Index of the last `'.'` in a character list, if any (Python `str.rfind('.')`). -/
def lastDotIdx (cs : List Char) : Option Nat :=
  (List.range cs.length).foldl (fun acc i => if cs.getD i ' ' = '.' then some i else acc) none

/-- Python `pathlib.PurePath.stem` on a bare filename: the name without its
last suffix, where a suffix only counts if the last dot is neither the first
nor the last character (so `".mp3"` and `"a."` are their own stems). -/
def pyStem (name : String) : String :=
  let cs := name.toList
  match lastDotIdx cs with
  | some i => if 0 < i ∧ i < cs.length - 1 then String.mk (cs.take i) else name
  | none => name

/-- Suffix test on character lists: does `xs` end with `ys`. -/
def endsWithChars (xs ys : List Char) : Bool :=
  if ys.length ≤ xs.length then xs.drop (xs.length - ys.length) == ys else false

/-- Membership of a filename in `audio_dir.glob(f"*{audio_ext}")`, with
`audio_ext` a literal string (the default is `".mp3"`): the glob pattern
`*ext` matches exactly the names ending with `ext` (pathlib's `glob` does
not exclude dot-files). -/
def globMatch (ext name : String) : Bool :=
  endsWithChars name.toList ext.toList

/-- Strict lexicographic order on character lists by Unicode code point —
Python's `<` on strings, which is what `sorted` uses. -/
def lexLt : List Char → List Char → Bool
  | [], [] => false
  | [], _ :: _ => true
  | _ :: _, [] => false
  | a :: as, b :: bs =>
      if a.toNat < b.toNat then true
      else if b.toNat < a.toNat then false
      else lexLt as bs

/-- The non-strict order `a ≤ b ↔ ¬ b < a` induced by Python's string
comparison; sorting with it is sorting with Python's `sorted`. -/
def strLeB (a b : String) : Bool :=
  !(lexLt b.toList a.toList)

/-- The comparison `strLeB` as a relation, the sort order of the audio listing. -/
def strLeRel : String → String → Prop :=
  fun a b => strLeB a b = true

instance : DecidableRel strLeRel :=
  fun a b => instDecidableEqBool (strLeB a b) true

/-- The optional `recaption` annotation stored in a record:
`record["recaption"] = {"style": recaption}`. -/
structure Recaption where
  style : String
deriving DecidableEq, Repr

/-- One record of the dataset built by `build_dataset`, with the fields the
Python code puts in the dict: `keys`, `filename`, `tags`, `norm_lyrics`
and the optional `recaption`. -/
structure Record where
  keys : String
  filename : String
  tags : List String
  norm_lyrics : String
  recaption : Option Recaption
deriving DecidableEq, Repr

/-- The single-line diagnostics `build_dataset` prints as it scans. -/
inductive Diag where
  /-- Printed as `[skip] missing lyrics file for {audio_path.name}`. -/
  | skipMissingLyrics (audioName : String)
  /-- Printed as `[ok] converted {audio_path.name} -> {target_audio}`. -/
  | okConverted (audioName : String) (target : String)
  /-- Printed as `[error] convert failed for {audio_path.name}: {e}` where the message
  of `e` carries the transcoder's captured standard-error text. -/
  | convertFailed (audioName : String) (stderrText : String)
  /-- Printed as `[skip] empty lyrics in {lyrics_path}`. -/
  | skipEmptyLyrics (base : String)
deriving DecidableEq, Repr

/-- The inputs of one `build_dataset` run: the audio-directory listing (in
arbitrary filesystem order), the lyrics directory as a map from base name
to the contents of `lyrics_dir/base.txt` (`none` when the file is absent),
the set of base names whose `converted_audio/B.wav` already exists, and the
external transcoder as an oracle from base name to `none` (exit 0) or
`some stderrText` (non-zero exit). -/
structure Config where
  audioListing : List String
  audioExt : String
  lyrics : String → Option String
  converted0 : List String
  ffmpeg : String → Option String
  tags : List String
  recaption : Option String
  outputDir : String

/-- The target path `converted_dir / f"{base}.wav"` as a string. -/
def targetAudioPath (cfg : Config) (base : String) : String :=
  cfg.outputDir ++ "/converted_audio/" ++ base ++ ".wav"

/-- The record dict built for a valid pair (lines 65–73 of the script):
`recaption` is attached only when the caller-supplied value is truthy,
i.e. neither `None` nor the empty string. -/
def mkRecord (cfg : Config) (base norm : String) : Record :=
  { keys := base
    filename := targetAudioPath cfg base
    tags := cfg.tags
    norm_lyrics := norm
    recaption :=
      match cfg.recaption with
      | some s => if s = "" then none else some ⟨s⟩
      | none => none }

/-- The state the scan loop of `build_dataset` threads: accumulated records,
set of existing converted files, transcoder invocations, printed
diagnostics, and whether `run_ffmpeg`'s
`output_path.parent.mkdir(parents=True, exist_ok=True)` has run (which
creates `converted_audio/` *and its parent* `output_dir`). -/
structure LoopState where
  records : List Record
  converted : List String
  ffmpegCalls : List String
  diags : List Diag
  convertedDirMkdir : Bool
deriving Repr

/-- The conversion step for one item (lines 50–57): skipped when the target
already exists; otherwise `run_ffmpeg` is invoked — which first creates the
output directories, then runs the transcoder — and a failure is caught,
logged and makes the item be skipped.  Returns whether the item survives
conversion, together with the updated state. -/
def convertStep (cfg : Config) (st : LoopState) (fname base : String) :
    Bool × LoopState :=
  if st.converted.contains base then (true, st)
  else
    let st1 : LoopState :=
      { st with
        convertedDirMkdir := true
        ffmpegCalls := st.ffmpegCalls ++ [base] }
    match cfg.ffmpeg base with
    | none =>
        (true,
         { st1 with
           converted := st1.converted ++ [base]
           diags := st1.diags ++ [.okConverted fname (targetAudioPath cfg base)] })
    | some err =>
        (false, { st1 with diags := st1.diags ++ [.convertFailed fname err] })

/-- The body of the scan loop for one audio filename (lines 43–74):
check for the lyrics file, convert if needed, read and strip the lyrics,
and append a record when everything is valid. -/
def processItem (cfg : Config) (st : LoopState) (fname : String) : LoopState :=
  let base := pyStem fname
  match cfg.lyrics base with
  | none => { st with diags := st.diags ++ [.skipMissingLyrics fname] }
  | some content =>
      let p := convertStep cfg st fname base
      if p.1 then
        let norm := pyStrip content
        if norm = "" then
          { p.2 with diags := p.2.diags ++ [.skipEmptyLyrics base] }
        else
          { p.2 with records := p.2.records ++ [mkRecord cfg base norm] }
      else p.2

/-- The files `audio_dir.glob(f"*{audio_ext}")` yields, before sorting. -/
def globFiles (cfg : Config) : List String :=
  cfg.audioListing.filter (globMatch cfg.audioExt)

/-- Model of `sorted(audio_dir.glob(...))`: `Path` objects in one directory compare
by their filename string, so this is the listing sorted lexicographically
by filename (stable sort, like Python's). -/
def sortedFiles (cfg : Config) : List String :=
  List.insertionSort strLeRel (globFiles cfg)

/-- The whole scan loop of `build_dataset`. -/
def runScan (cfg : Config) : LoopState :=
  (sortedFiles cfg).foldl (processItem cfg)
    { records := []
      converted := cfg.converted0
      ffmpegCalls := []
      diags := []
      convertedDirMkdir := false }

/-- The observable outcome of one `build_dataset` run: `result = none`
models the `RuntimeError("No valid audio/lyrics pairs found.")` raise,
`result = some rs` the successful persist of `rs`; `saved` records whether
`output_dir.mkdir` + `ds.save_to_disk` ran, and `convertedDirMkdir` whether
`run_ffmpeg` created `converted_audio/` (and hence `output_dir`, its
parent). -/
structure BuildResult where
  result : Option (List Record)
  diags : List Diag
  ffmpegCalls : List String
  convertedAfter : List String
  convertedDirMkdir : Bool
  saved : Bool
deriving Repr

/-- The function `build_dataset` (lines 28–83): scan, then raise if no records survived,
else create `output_dir` and save the dataset. -/
def build_dataset (cfg : Config) : BuildResult :=
  let st := runScan cfg
  if st.records.isEmpty then
    { result := none
      diags := st.diags
      ffmpegCalls := st.ffmpegCalls
      convertedAfter := st.converted
      convertedDirMkdir := st.convertedDirMkdir
      saved := false }
  else
    { result := some st.records
      diags := st.diags
      ffmpegCalls := st.ffmpegCalls
      convertedAfter := st.converted
      convertedDirMkdir := st.convertedDirMkdir
      saved := true }

/-- Whether the run created `output_dir` (when it did not exist before):
either `run_ffmpeg` made it as the parent of `converted_audio/`, or the
final `output_dir.mkdir(parents=True, exist_ok=True)` before saving did. -/
def outputDirCreated (r : BuildResult) : Bool :=
  r.convertedDirMkdir || r.saved

/-- Whether, for a given set `conv` of already-converted base names, the
conversion step lets base `b` through: the target already exists, or the
transcoder succeeds on it. -/
def convOkC (cfg : Config) (conv : List String) (b : String) : Bool :=
  conv.contains b || (cfg.ffmpeg b).isNone

/-- Whether the audio file named `fname` yields a record, relative to a set
`conv` of already-converted base names: its lyrics file exists, conversion
goes through, and the stripped lyrics are non-empty. -/
def itemValidC (cfg : Config) (conv : List String) (fname : String) : Bool :=
  match cfg.lyrics (pyStem fname) with
  | none => false
  | some c => if pyStrip c = "" then false else convOkC cfg conv (pyStem fname)

/-- Whether the audio file named `fname` yields a record in a run from the
initial converted set. -/
def validFile (cfg : Config) (fname : String) : Bool :=
  itemValidC cfg cfg.converted0 fname

/-- Whether at least one listed audio file yields a record ("a valid
audio/lyrics pair exists"). -/
def existsValidPair (cfg : Config) : Bool :=
  (globFiles cfg).any (validFile cfg)

/-- The record the scan produces for a (valid) audio filename. -/
def recOf (cfg : Config) (fname : String) : Record :=
  mkRecord cfg (pyStem fname) (pyStrip ((cfg.lyrics (pyStem fname)).getD ""))

/-! ### The channel fetcher (`download_channel_mp3.py`) -/

/-- How `download_channel` ends: a normal return, or terminating the
program via `raise SystemExit(code)`. -/
inductive FetchOutcome where
  | normal
  | exitWith (code : Int)
deriving DecidableEq, Repr

/-- The yt-dlp command line `download_channel` constructs (lines 37–53). -/
def downloadCmd (channelUrl outputTemplate : String) (maxConcurrent : Nat) :
    List String :=
  ["yt-dlp", "--yes-playlist", "--ignore-errors", "--no-abort-on-error",
   "--extract-audio", "--audio-format", "mp3", "--audio-quality", "0",
   "--concurrent-fragments", toString maxConcurrent,
   "--output", outputTemplate, channelUrl]

/-- The exit behaviour of `download_channel` (lines 55–57) as a function of
the downloader subprocess's return code: `raise SystemExit(returncode)`
when it is non-zero, normal return otherwise. -/
def download_channel (returncode : Int) : FetchOutcome :=
  if returncode ≠ 0 then .exitWith returncode else .normal

/-! ### Tag parsing in `main` (`build_lora_dataset.py` line 110) -/

/-- Python `str.split(",")` on a character list: split at every comma, with
no merging of adjacent separators (so `""` splits to `[""]` and `","` to
`["", ""]`). -/
def splitCommaChars : List Char → List (List Char)
  | [] => [[]]
  | c :: cs =>
      let r := splitCommaChars cs
      if c = ',' then [] :: r
      else
        match r with
        | [] => [[c]]
        | g :: gs => (c :: g) :: gs

/-- Model of `args.tags.split(",")`. -/
def pySplitComma (s : String) : List String :=
  (splitCommaChars s.toList).map String.mk

/-- Model of `[t.strip() for t in args.tags.split(",") if t.strip()]`: the tag list
`main` passes to `build_dataset`. -/
def parseTags (s : String) : List String :=
  (pySplitComma s).filterMap fun t =>
    let t' := pyStrip t
    if t' = "" then none else some t'

/-! ### Concrete directory states used to exercise the pipeline -/

/-- One audio file whose lyrics file exists but is whitespace-only, with a
succeeding transcoder: the scan attempts a conversion and ends with zero
records. -/
def cfgOnlyBlankLyrics : Config :=
  { audioListing := ["a.mp3"]
    audioExt := ".mp3"
    lyrics := fun b => if b = "a" then some "  \n " else none
    converted0 := []
    ffmpeg := fun _ => none
    tags := []
    recaption := none
    outputDir := "/data/out" }

/-- One audio file with no lyrics file at all: zero records and no
transcoder invocation. -/
def cfgNoLyrics : Config :=
  { audioListing := ["a.mp3"]
    audioExt := ".mp3"
    lyrics := fun _ => none
    converted0 := []
    ffmpeg := fun _ => some "never invoked"
    tags := []
    recaption := none
    outputDir := "/data/out" }

/-- Two audio files `a.mp3` and `a.b.mp3` (both matching `*.mp3`), both
already converted and with valid lyrics. -/
def cfgDottedStems : Config :=
  { audioListing := ["a.mp3", "a.b.mp3"]
    audioExt := ".mp3"
    lyrics := fun b => if b = "a" then some "x" else if b = "a.b" then some "y" else none
    converted0 := ["a", "a.b"]
    ffmpeg := fun _ => some "unused"
    tags := []
    recaption := none
    outputDir := "/data/out" }

/-- Audio files `b.mp3`, `a.mp3`, `c.mp3` listed out of order, each with a
valid transcript, succeeding conversions, and a style value. -/
def cfgThreeSongs : Config :=
  { audioListing := ["b.mp3", "a.mp3", "c.mp3"]
    audioExt := ".mp3"
    lyrics := fun b =>
      if b = "a" then some " la la " else
      if b = "b" then some "bb" else
      if b = "c" then some "cc" else none
    converted0 := []
    ffmpeg := fun _ => none
    tags := ["pop"]
    recaption := some "dreamy"
    outputDir := "/data/out" }

/-- Three valid pairs where the transcoder fails on `x` only. -/
def cfgMixedFailure : Config :=
  { audioListing := ["x.mp3", "y.mp3", "z.mp3"]
    audioExt := ".mp3"
    lyrics := fun b =>
      if b = "x" then some "xx" else
      if b = "y" then some "yy" else
      if b = "z" then some "zz" else none
    converted0 := []
    ffmpeg := fun b => if b = "x" then some "x.mp3: codec not found" else none
    tags := ["rock"]
    recaption := none
    outputDir := "/data/out" }

/-- Scenario with `song1.mp3` paired to lyrics `"hello world"` and `song2.mp3` without lyrics. -/
def cfgMissingSecond : Config :=
  { audioListing := ["song1.mp3", "song2.mp3"]
    audioExt := ".mp3"
    lyrics := fun b => if b = "song1" then some "hello world" else none
    converted0 := []
    ffmpeg := fun _ => none
    tags := []
    recaption := none
    outputDir := "/data/out" }

/-- A blank transcript for `a` (whose conversion succeeds) next to a good
pair `b`. -/
def cfgBlankFirst : Config :=
  { audioListing := ["a.mp3", "b.mp3"]
    audioExt := ".mp3"
    lyrics := fun b => if b = "a" then some " \t " else if b = "b" then some "text" else none
    converted0 := []
    ffmpeg := fun _ => none
    tags := []
    recaption := none
    outputDir := "/data/out" }

/-! ### Order properties of the sort comparison -/

theorem lexLt_asymm : ∀ xs ys : List Char, lexLt xs ys = true → lexLt ys xs = false
  | [], [] => by simp [lexLt]
  | [], _ :: _ => by simp [lexLt]
  | _ :: _, [] => by simp [lexLt]
  | a :: as, b :: bs => by
      simp only [lexLt]
      by_cases h1 : a.toNat < b.toNat
      · intro _
        simp [h1, Nat.lt_asymm h1]
      · by_cases h2 : b.toNat < a.toNat
        · simp [h1, h2]
        · simpa [h1, h2] using lexLt_asymm as bs

theorem lexLt_trans :
    ∀ xs ys zs : List Char, lexLt xs ys = true → lexLt ys zs = true → lexLt xs zs = true
  | [], [], _ => by simp [lexLt]
  | [], _ :: _, [] => by simp [lexLt]
  | [], _ :: _, _ :: _ => by simp [lexLt]
  | _ :: _, [], _ => by simp [lexLt]
  | _ :: _, _ :: _, [] => by simp [lexLt]
  | a :: as, b :: bs, c :: cs => by
      simp only [lexLt]
      by_cases h1 : a.toNat < b.toNat
      · by_cases h2 : b.toNat < c.toNat
        · intro _ _
          simp [show a.toNat < c.toNat from Nat.lt_trans h1 h2]
        · by_cases h3 : c.toNat < b.toNat
          · simp [h1, h2, h3]
          · have hbc : b.toNat = c.toNat := Nat.le_antisymm (Nat.le_of_not_lt h3) (Nat.le_of_not_lt h2)
            intro _ _
            simp [show a.toNat < c.toNat from hbc ▸ h1]
      · by_cases h2 : b.toNat < a.toNat
        · simp [h1, h2]
        · have hab : a.toNat = b.toNat := Nat.le_antisymm (Nat.le_of_not_lt h2) (Nat.le_of_not_lt h1)
          by_cases h3 : b.toNat < c.toNat
          · intro _ _
            simp [show a.toNat < c.toNat from hab ▸ h3]
          · by_cases h4 : c.toNat < b.toNat
            · simp [h1, h2, h3, h4]
            · intro hxy hyz
              have h5 : ¬ a.toNat < c.toNat := by omega
              have h6 : ¬ c.toNat < a.toNat := by omega
              simp only [h1, h2, h3, h4, if_neg, ite_false] at hxy hyz
              simpa [h5, h6] using lexLt_trans as bs cs hxy hyz

theorem lexLt_conn : ∀ xs ys : List Char, lexLt xs ys = false → lexLt ys xs = false → xs = ys
  | [], [] => by simp
  | [], _ :: _ => by simp [lexLt]
  | _ :: _, [] => by simp [lexLt]
  | a :: as, b :: bs => by
      simp only [lexLt]
      by_cases h1 : a.toNat < b.toNat
      · simp [h1]
      · by_cases h2 : b.toNat < a.toNat
        · simp [h1, h2]
        · intro hxy hyx
          have htn : a.toNat = b.toNat := by omega
          have hab : a = b := Char.ext (UInt32.ext htn)
          simp only [h1, h2, if_neg, ite_false] at hxy hyx
          rw [hab, lexLt_conn as bs hxy hyx]

theorem bool_eq_false {b : Bool} (h : ¬ b = true) : b = false := by
  cases b
  · rfl
  · exact absurd rfl h

theorem strLeRel_iff (a b : String) : strLeRel a b ↔ lexLt b.toList a.toList = false := by
  unfold strLeRel strLeB
  cases h : lexLt b.toList a.toList <;> simp

theorem strLeRel_total (a b : String) : strLeRel a b ∨ strLeRel b a := by
  rw [strLeRel_iff, strLeRel_iff]
  by_cases h : lexLt b.toList a.toList = true
  · right
    exact lexLt_asymm _ _ h
  · left
    exact bool_eq_false h

theorem strLeRel_trans (a b c : String) :
    strLeRel a b → strLeRel b c → strLeRel a c := by
  rw [strLeRel_iff, strLeRel_iff, strLeRel_iff]
  intro hab hbc
  by_cases h : lexLt c.toList a.toList = true
  · by_cases h1 : lexLt a.toList b.toList = true
    · have h2 := lexLt_trans _ _ _ h h1
      rw [hbc] at h2
      cases h2
    · have hab2 : a.toList = b.toList := lexLt_conn _ _ (bool_eq_false h1) hab
      rw [← hab2] at hbc
      rw [h] at hbc
      cases hbc
  · exact bool_eq_false h

theorem strLeRel_antisymm (a b : String) :
    strLeRel a b → strLeRel b a → a = b := by
  rw [strLeRel_iff, strLeRel_iff]
  intro hab hba
  exact String.toList_inj.mp (lexLt_conn _ _ hba hab)

/-! ### The scan-loop invariants

One `processItem` step, relative to a reference converted set `conv0`, as
long as the running converted set extends `conv0` only by bases the
transcoder succeeds on.  This captures all the facts the claims need. -/

theorem processItem_spec (cfg : Config) (conv0 : List String) (st : LoopState) (f : String)
    (hE1 : ∀ b, b ∈ conv0 → b ∈ st.converted)
    (hE2 : ∀ b, b ∈ st.converted → b ∈ conv0 ∨ (cfg.ffmpeg b).isNone = true) :
    (processItem cfg st f).records
        = st.records ++ (if itemValidC cfg conv0 f then [recOf cfg f] else []) ∧
    (∀ b, b ∈ st.converted → b ∈ (processItem cfg st f).converted) ∧
    (∀ b, b ∈ (processItem cfg st f).converted →
        b ∈ st.converted ∨ (cfg.ffmpeg b).isNone = true) ∧
    (∀ b, b ∈ (processItem cfg st f).ffmpegCalls →
        b ∈ st.ffmpegCalls ∨ ((cfg.lyrics b).isSome = true ∧ b ∉ st.converted)) ∧
    (∀ d, d ∈ st.diags → d ∈ (processItem cfg st f).diags) ∧
    (∀ err, cfg.ffmpeg (pyStem f) = some err → (cfg.lyrics (pyStem f)).isSome = true →
        pyStem f ∉ st.converted → Diag.convertFailed f err ∈ (processItem cfg st f).diags) ∧
    ((∀ r, r ∈ st.records → r.keys ∈ st.converted) →
        ∀ r, r ∈ (processItem cfg st f).records →
          r.keys ∈ (processItem cfg st f).converted) ∧
    (st.convertedDirMkdir = !st.ffmpegCalls.isEmpty →
        (processItem cfg st f).convertedDirMkdir
          = !(processItem cfg st f).ffmpegCalls.isEmpty) := by
  cases hly : cfg.lyrics (pyStem f) with
  | none =>
      have heq : processItem cfg st f
          = { st with diags := st.diags ++ [.skipMissingLyrics f] } := by
        simp [processItem, hly]
      have hval : itemValidC cfg conv0 f = false := by
        simp [itemValidC, hly]
      rw [heq, hval]
      refine ⟨by simp, by simp, fun b hb => Or.inl hb, fun b hb => Or.inl hb,
        fun d hd => by simp [hd], ?_, ?_, by simp⟩
      · intro err _ hsome
        simp [hly] at hsome
      · intro h r hr
        simp only at hr
        exact h r hr
  | some c =>
      by_cases hc : pyStem f ∈ st.converted
      · -- target already exists: conversion skipped
        have hok : convOkC cfg conv0 (pyStem f) = true := by
          rcases hE2 _ hc with h | h
          · simp [convOkC, h]
          · simp [convOkC, h]
        by_cases hstrip : pyStrip c = ""
        · have heq : processItem cfg st f
              = { st with diags := st.diags ++ [.skipEmptyLyrics (pyStem f)] } := by
            simp [processItem, hly, convertStep, hc, hstrip]
          have hval : itemValidC cfg conv0 f = false := by
            simp [itemValidC, hly, hstrip]
          rw [heq, hval]
          refine ⟨by simp, by simp, fun b hb => Or.inl hb, fun b hb => Or.inl hb,
            fun d hd => by simp [hd], ?_, ?_, by simp⟩
          · intro _ _ _ hnc
            exact absurd hc hnc
          · intro h r hr
            simp only at hr
            exact h r hr
        · have heq : processItem cfg st f
              = { st with records := st.records ++ [mkRecord cfg (pyStem f) (pyStrip c)] } := by
            simp [processItem, hly, convertStep, hc, hstrip]
          have hval : itemValidC cfg conv0 f = true := by
            simp [itemValidC, hly, hstrip, hok]
          have hrec : recOf cfg f = mkRecord cfg (pyStem f) (pyStrip c) := by
            simp [recOf, hly]
          rw [heq, hval, hrec]
          refine ⟨by simp, by simp, fun b hb => Or.inl hb, fun b hb => Or.inl hb,
            fun d hd => by simp [hd], ?_, ?_, by simp⟩
          · intro _ _ _ hnc
            exact absurd hc hnc
          · intro h r hr
            simp only [List.mem_append, List.mem_singleton] at hr
            rcases hr with hr | hr
            · exact h r hr
            · subst hr
              simpa [mkRecord] using hc
      · -- conversion attempted
        have hc0 : pyStem f ∉ conv0 := fun h => hc (hE1 _ h)
        cases hff : cfg.ffmpeg (pyStem f) with
        | none =>
            have hok : convOkC cfg conv0 (pyStem f) = true := by
              simp [convOkC, hff]
            by_cases hstrip : pyStrip c = ""
            · have heq : processItem cfg st f
                  = { st with
                      convertedDirMkdir := true
                      ffmpegCalls := st.ffmpegCalls ++ [pyStem f]
                      converted := st.converted ++ [pyStem f]
                      diags := st.diags
                        ++ [.okConverted f (targetAudioPath cfg (pyStem f))]
                        ++ [.skipEmptyLyrics (pyStem f)] } := by
                simp [processItem, hly, convertStep, hc, hff, hstrip]
              have hval : itemValidC cfg conv0 f = false := by
                simp [itemValidC, hly, hstrip]
              rw [heq, hval]
              refine ⟨by simp, fun b hb => by simp [hb], ?_, ?_,
                fun d hd => by simp [hd], ?_, ?_, by simp⟩
              · intro b hb
                simp only [List.mem_append, List.mem_singleton] at hb
                rcases hb with hb | hb
                · exact Or.inl hb
                · subst hb
                  simp [hff]
              · intro b hb
                simp only [List.mem_append, List.mem_singleton] at hb
                rcases hb with hb | hb
                · exact Or.inl hb
                · subst hb
                  exact Or.inr ⟨by simp [hly], hc⟩
              · intro err herr
                cases herr
              · intro h r hr
                simp only at hr
                have := h r hr
                simp [this]
            · have heq : processItem cfg st f
                  = { st with
                      convertedDirMkdir := true
                      ffmpegCalls := st.ffmpegCalls ++ [pyStem f]
                      converted := st.converted ++ [pyStem f]
                      diags := st.diags
                        ++ [.okConverted f (targetAudioPath cfg (pyStem f))]
                      records := st.records ++ [mkRecord cfg (pyStem f) (pyStrip c)] } := by
                simp [processItem, hly, convertStep, hc, hff, hstrip]
              have hval : itemValidC cfg conv0 f = true := by
                simp [itemValidC, hly, hstrip, hok]
              have hrec : recOf cfg f = mkRecord cfg (pyStem f) (pyStrip c) := by
                simp [recOf, hly]
              rw [heq, hval, hrec]
              refine ⟨by simp, fun b hb => by simp [hb], ?_, ?_,
                fun d hd => by simp [hd], ?_, ?_, by simp⟩
              · intro b hb
                simp only [List.mem_append, List.mem_singleton] at hb
                rcases hb with hb | hb
                · exact Or.inl hb
                · subst hb
                  simp [hff]
              · intro b hb
                simp only [List.mem_append, List.mem_singleton] at hb
                rcases hb with hb | hb
                · exact Or.inl hb
                · subst hb
                  exact Or.inr ⟨by simp [hly], hc⟩
              · intro err herr
                cases herr
              · intro h r hr
                simp only [List.mem_append, List.mem_singleton] at hr
                rcases hr with hr | hr
                · have := h r hr
                  simp [this]
                · subst hr
                  simp [mkRecord]
        | some err =>
            have hok : convOkC cfg conv0 (pyStem f) = false := by
              simp [convOkC, hff, hc0]
            have heq : processItem cfg st f
                = { st with
                    convertedDirMkdir := true
                    ffmpegCalls := st.ffmpegCalls ++ [pyStem f]
                    diags := st.diags ++ [.convertFailed f err] } := by
              simp [processItem, hly, convertStep, hc, hff]
            have hval : itemValidC cfg conv0 f = false := by
              by_cases hstrip : pyStrip c = "" <;> simp [itemValidC, hly, hstrip, hok]
            rw [heq, hval]
            refine ⟨by simp, by simp, fun b hb => Or.inl hb, ?_,
              fun d hd => by simp [hd], ?_, ?_, by simp⟩
            · intro b hb
              simp only [List.mem_append, List.mem_singleton] at hb
              rcases hb with hb | hb
              · exact Or.inl hb
              · subst hb
                exact Or.inr ⟨by simp [hly], hc⟩
            · intro err2 herr2 _ _
              injection herr2 with he
              subst he
              simp
            · intro h r hr
              simp only at hr
              exact h r hr

/-- The scan loop over a whole listing, by induction from `processItem_spec`:
closed form of the record list, evolution of the converted set, provenance
of transcoder invocations, diagnostics for failed conversions, the
records-are-converted invariant, and the tie between directory creation and
transcoder invocations. -/
theorem scanFold_spec (cfg : Config) (conv0 : List String) :
    ∀ (l : List String) (st : LoopState),
    (∀ b, b ∈ conv0 → b ∈ st.converted) →
    (∀ b, b ∈ st.converted → b ∈ conv0 ∨ (cfg.ffmpeg b).isNone = true) →
    (l.foldl (processItem cfg) st).records
        = st.records ++ (l.filter (itemValidC cfg conv0)).map (recOf cfg) ∧
    (∀ b, b ∈ st.converted → b ∈ (l.foldl (processItem cfg) st).converted) ∧
    (∀ b, b ∈ (l.foldl (processItem cfg) st).converted →
        b ∈ st.converted ∨ (cfg.ffmpeg b).isNone = true) ∧
    (∀ b, b ∈ (l.foldl (processItem cfg) st).ffmpegCalls →
        b ∈ st.ffmpegCalls ∨ ((cfg.lyrics b).isSome = true ∧ b ∉ st.converted)) ∧
    (∀ d, d ∈ st.diags → d ∈ (l.foldl (processItem cfg) st).diags) ∧
    (∀ g err, g ∈ l → cfg.ffmpeg (pyStem g) = some err →
        (cfg.lyrics (pyStem g)).isSome = true → pyStem g ∉ st.converted →
        Diag.convertFailed g err ∈ (l.foldl (processItem cfg) st).diags) ∧
    ((∀ r, r ∈ st.records → r.keys ∈ st.converted) →
        ∀ r, r ∈ (l.foldl (processItem cfg) st).records →
          r.keys ∈ (l.foldl (processItem cfg) st).converted) ∧
    (st.convertedDirMkdir = !st.ffmpegCalls.isEmpty →
        (l.foldl (processItem cfg) st).convertedDirMkdir
          = !(l.foldl (processItem cfg) st).ffmpegCalls.isEmpty) := by
  intro l
  induction l with
  | nil =>
      intro st hE1 hE2
      refine ⟨by simp, fun b hb => hb, fun b hb => Or.inl hb, fun b hb => Or.inl hb,
        fun d hd => hd, ?_, fun h => h, fun h => h⟩
      intro g err hg
      cases hg
  | cons f l ih =>
      intro st hE1 hE2
      obtain ⟨s1, s2, s3, s4, s5, s6, s7, s8⟩ := processItem_spec cfg conv0 st f hE1 hE2
      have hE1' : ∀ b, b ∈ conv0 → b ∈ (processItem cfg st f).converted :=
        fun b hb => s2 b (hE1 b hb)
      have hE2' : ∀ b, b ∈ (processItem cfg st f).converted →
          b ∈ conv0 ∨ (cfg.ffmpeg b).isNone = true := by
        intro b hb
        rcases s3 b hb with h | h
        · exact hE2 b h
        · exact Or.inr h
      obtain ⟨i1, i2, i3, i4, i5, i6, i7, i8⟩ := ih (processItem cfg st f) hE1' hE2'
      simp only [List.foldl_cons]
      refine ⟨?_, ?_, ?_, ?_, ?_, ?_, ?_, ?_⟩
      · rw [i1, s1]
        by_cases hv : itemValidC cfg conv0 f <;>
          simp [hv, List.filter_cons, List.append_assoc]
      · intro b hb
        exact i2 b (s2 b hb)
      · intro b hb
        rcases i3 b hb with h | h
        · exact s3 b h
        · exact Or.inr h
      · intro b hb
        rcases i4 b hb with h | ⟨hsome, hnc⟩
        · exact s4 b h
        · refine Or.inr ⟨hsome, fun hmem => hnc (s2 b hmem)⟩
      · intro d hd
        exact i5 d (s5 d hd)
      · intro g err hg herr hsome hnc
        rcases List.mem_cons.mp hg with hg | hg
        · subst hg
          exact i5 _ (s6 err herr hsome hnc)
        · refine i6 g err hg herr hsome ?_
          intro hmem
          rcases s3 _ hmem with h | h
          · exact hnc h
          · rw [herr] at h
            cases h
      · intro h r hr
        exact i7 (s7 h) r hr
      · intro h
        exact i8 (s8 h)

/-- A filename is in the sorted scan list iff it is in the glob listing. -/
theorem mem_sortedFiles (cfg : Config) (f : String) :
    f ∈ sortedFiles cfg ↔ f ∈ globFiles cfg :=
  (List.perm_insertionSort strLeRel (globFiles cfg)).mem_iff

/-- The scan list is sorted in the Python string order. -/
theorem sortedFiles_sorted (cfg : Config) : List.Sorted strLeRel (sortedFiles cfg) := by
  haveI : IsTotal String strLeRel := ⟨strLeRel_total⟩
  haveI : IsTrans String strLeRel := ⟨fun a b c => strLeRel_trans a b c⟩
  exact List.sorted_insertionSort strLeRel (globFiles cfg)

/-- The whole-scan facts, instantiated at `build_dataset`'s starting state. -/
theorem runScan_spec (cfg : Config) :
    (runScan cfg).records = ((sortedFiles cfg).filter (validFile cfg)).map (recOf cfg) ∧
    (∀ b, b ∈ cfg.converted0 → b ∈ (runScan cfg).converted) ∧
    (∀ b, b ∈ (runScan cfg).converted →
        b ∈ cfg.converted0 ∨ (cfg.ffmpeg b).isNone = true) ∧
    (∀ b, b ∈ (runScan cfg).ffmpegCalls →
        (cfg.lyrics b).isSome = true ∧ b ∉ cfg.converted0) ∧
    (∀ g err, g ∈ sortedFiles cfg → cfg.ffmpeg (pyStem g) = some err →
        (cfg.lyrics (pyStem g)).isSome = true → pyStem g ∉ cfg.converted0 →
        Diag.convertFailed g err ∈ (runScan cfg).diags) ∧
    (∀ r, r ∈ (runScan cfg).records → r.keys ∈ (runScan cfg).converted) ∧
    ((runScan cfg).convertedDirMkdir = !(runScan cfg).ffmpegCalls.isEmpty) := by
  obtain ⟨h1, h2, h3, h4, h5, h6, h7, h8⟩ :=
    scanFold_spec cfg cfg.converted0 (sortedFiles cfg)
      { records := []
        converted := cfg.converted0
        ffmpegCalls := []
        diags := []
        convertedDirMkdir := false }
      (fun _ hb => hb) (fun _ hb => Or.inl hb)
  unfold runScan
  refine ⟨by simpa [validFile] using h1, h2, h3, ?_, ?_, ?_, by simpa using h8⟩
  · intro b hb
    rcases h4 b hb with h | h
    · cases h
    · exact h
  · intro g err hg herr hsome hnc
    exact h6 g err hg herr hsome hnc
  · intro r hr
    refine h7 ?_ r hr
    intro r hr
    cases hr

/-- Shape of `build_dataset` in terms of the scan: raise iff no records, and all
other fields carried over unchanged. -/
theorem build_dataset_def (cfg : Config) :
    build_dataset cfg =
      { result :=
          if (runScan cfg).records.isEmpty then none else some (runScan cfg).records
        diags := (runScan cfg).diags
        ffmpegCalls := (runScan cfg).ffmpegCalls
        convertedAfter := (runScan cfg).converted
        convertedDirMkdir := (runScan cfg).convertedDirMkdir
        saved := !(runScan cfg).records.isEmpty } := by
  unfold build_dataset
  by_cases h : (runScan cfg).records.isEmpty <;> simp [h]

/-- The sorted scan list does not depend on the order the filesystem lists
the audio directory in: any permutation of the listing sorts to the same
list. -/
theorem sortedFiles_perm_inv (cfg : Config) (l2 : List String)
    (h : cfg.audioListing.Perm l2) :
    sortedFiles { cfg with audioListing := l2 } = sortedFiles cfg := by
  haveI : IsTotal String strLeRel := ⟨strLeRel_total⟩
  haveI : IsTrans String strLeRel := ⟨fun a b c => strLeRel_trans a b c⟩
  haveI : IsAntisymm String strLeRel := ⟨fun a b => strLeRel_antisymm a b⟩
  have p1 : (sortedFiles { cfg with audioListing := l2 }).Perm
      (globFiles { cfg with audioListing := l2 }) :=
    List.perm_insertionSort strLeRel _
  have p2 : (globFiles { cfg with audioListing := l2 }).Perm (globFiles cfg) :=
    h.symm.filter (globMatch cfg.audioExt)
  have p3 : (globFiles cfg).Perm (sortedFiles cfg) :=
    (List.perm_insertionSort strLeRel (globFiles cfg)).symm
  exact List.eq_of_perm_of_sorted (p1.trans (p2.trans p3))
    (sortedFiles_sorted _) (sortedFiles_sorted cfg)

/-- The run of `build_dataset` is invariant under permutations of the directory
listing: the sort step makes the run independent of filesystem order. -/
theorem build_dataset_perm_inv (cfg : Config) (l2 : List String)
    (h : cfg.audioListing.Perm l2) :
    build_dataset { cfg with audioListing := l2 } = build_dataset cfg := by
  have hs := sortedFiles_perm_inv cfg l2 h
  unfold build_dataset runScan
  rw [hs]
  rfl

/-- The scan produces no record exactly when no listed audio file is a
valid pair. -/
theorem runScan_records_eq_nil_iff (cfg : Config) :
    (runScan cfg).records = [] ↔ existsValidPair cfg = false := by
  rw [(runScan_spec cfg).1]
  simp only [List.map_eq_nil_iff, List.filter_eq_nil_iff, existsValidPair,
    List.any_eq_false]
  constructor
  · intro h f hf
    simpa using h f ((mem_sortedFiles cfg f).mpr hf)
  · intro h f hf
    simpa using h f ((mem_sortedFiles cfg f).mp hf)

/-- Two converted sets that differ only by bases the transcoder succeeds on
let the same items through the conversion step. -/
theorem convOkC_congr (cfg : Config) (conv conv0 : List String)
    (h1 : ∀ b, b ∈ conv0 → b ∈ conv)
    (h2 : ∀ b, b ∈ conv → b ∈ conv0 ∨ (cfg.ffmpeg b).isNone = true) (b : String) :
    convOkC cfg conv b = convOkC cfg conv0 b := by
  rw [Bool.eq_iff_iff]
  simp only [convOkC, Bool.or_eq_true]
  constructor
  · rintro (hc | hn)
    · rcases h2 b (by simpa using hc) with h | h
      · exact Or.inl (by simpa using h)
      · exact Or.inr h
    · exact Or.inr hn
  · rintro (hc | hn)
    · exact Or.inl (by simpa using h1 b (by simpa using hc))
    · exact Or.inr hn

/-- Item validity relative to such converted sets agrees too. -/
theorem itemValidC_congr (cfg : Config) (conv conv0 : List String)
    (h1 : ∀ b, b ∈ conv0 → b ∈ conv)
    (h2 : ∀ b, b ∈ conv → b ∈ conv0 ∨ (cfg.ffmpeg b).isNone = true) (f : String) :
    itemValidC cfg conv f = itemValidC cfg conv0 f := by
  unfold itemValidC
  cases cfg.lyrics (pyStem f) with
  | none => rfl
  | some c =>
      by_cases hstrip : pyStrip c = "" <;>
        simp [hstrip, convOkC_congr cfg conv conv0 h1 h2]

/-- A second scan that starts from the converted files the first scan left
behind produces exactly the first scan's records. -/
theorem second_runScan_records (cfg : Config) :
    (runScan { cfg with converted0 := (runScan cfg).converted }).records
      = (runScan cfg).records := by
  obtain ⟨h1, h2, h3, _, _, _, _⟩ := runScan_spec cfg
  rw [(runScan_spec { cfg with converted0 := (runScan cfg).converted }).1, h1]
  have hfil : ∀ f ∈ sortedFiles cfg,
      validFile { cfg with converted0 := (runScan cfg).converted } f
        = validFile cfg f := by
    intro f _
    show itemValidC cfg (runScan cfg).converted f = itemValidC cfg cfg.converted0 f
    exact itemValidC_congr cfg (runScan cfg).converted cfg.converted0 h2 h3 f
  show ((sortedFiles cfg).filter
      (validFile { cfg with converted0 := (runScan cfg).converted })).map (recOf cfg)
    = ((sortedFiles cfg).filter (validFile cfg)).map (recOf cfg)
  rw [List.filter_congr hfil]

/-- What makes a listed audio file a valid pair, spelled out: a lyrics file
with non-blank stripped contents, and a conversion that is either cached or
succeeds. -/
theorem validFile_iff (cfg : Config) (f : String) :
    validFile cfg f = true ↔
      ∃ c, cfg.lyrics (pyStem f) = some c ∧ pyStrip c ≠ "" ∧
        (pyStem f ∈ cfg.converted0 ∨ cfg.ffmpeg (pyStem f) = none) := by
  unfold validFile itemValidC convOkC
  cases hly : cfg.lyrics (pyStem f) with
  | none => simp
  | some c =>
      by_cases hstrip : pyStrip c = "" <;>
        simp [hstrip, Option.isNone_iff_eq_none]

/-- Membership in the scan's record list. -/
theorem mem_runScan_records (cfg : Config) (r : Record) :
    r ∈ (runScan cfg).records ↔
      ∃ g, g ∈ sortedFiles cfg ∧ validFile cfg g = true ∧ r = recOf cfg g := by
  rw [(runScan_spec cfg).1]
  simp only [List.mem_map, List.mem_filter]
  constructor
  · rintro ⟨g, ⟨hg, hv⟩, rfl⟩
    exact ⟨g, hg, hv, rfl⟩
  · rintro ⟨g, hg, hv, rfl⟩
    exact ⟨g, ⟨hg, hv⟩, rfl⟩

/-- When `build_dataset` returns a dataset, it is exactly the (non-empty)
scan record list. -/
theorem build_result_some_iff (cfg : Config) (rs : List Record) :
    (build_dataset cfg).result = some rs ↔
      (runScan cfg).records ≠ [] ∧ rs = (runScan cfg).records := by
  rw [build_dataset_def]
  by_cases h : (runScan cfg).records.isEmpty
  · have he : (runScan cfg).records = [] := by simpa using h
    simp [h, he]
  · have hne : (runScan cfg).records ≠ [] := by
      intro he
      exact h (by simp [he])
    simp [h, hne, eq_comm]

/-- The builder's tag comprehension as a strip-then-drop pipeline. -/
theorem filterMap_strip_filter (l : List String) :
    (l.filterMap fun t =>
        let t' := pyStrip t
        if t' = "" then none else some t')
      = (l.map pyStrip).filter (fun t => !(t == "")) := by
  induction l with
  | nil => rfl
  | cons a l ih =>
      by_cases h : pyStrip a = "" <;>
        simp [List.filterMap_cons, List.filter_cons, h, ih]

/-! ### The claims -/

/-- C9.  For every invocation of the channel fetcher, a non-zero exit
status `n` of the downloader subprocess terminates the program with exactly
status `n` (`raise SystemExit(n)`), and a zero status returns normally. -/
theorem c9_exit_status_propagation (n : Int) :
    (n ≠ 0 → download_channel n = FetchOutcome.exitWith n) ∧
    download_channel 0 = FetchOutcome.normal := by
  constructor
  · intro h
    simp [download_channel, h]
  · simp [download_channel]

theorem c9_exit_status_propagation_witness :
    download_channel 7 = FetchOutcome.exitWith 7 ∧
    download_channel 0 = FetchOutcome.normal :=
  ⟨(c9_exit_status_propagation 7).1 (by decide), (c9_exit_status_propagation 7).2⟩

/-- C10.  The tag list `main` passes to `build_dataset` is the list of
comma-separated pieces of the command-line string, each stripped, with
blank pieces dropped; in particular a string of only commas and whitespace
yields the empty tag list. -/
theorem c10_tags_split_strip_drop (s : String) :
    parseTags s = ((pySplitComma s).map pyStrip).filter (fun t => !(t == "")) ∧
    ((∀ t, t ∈ pySplitComma s → pyStrip t = "") → parseTags s = []) := by
  have h1 : parseTags s
      = ((pySplitComma s).map pyStrip).filter (fun t => !(t == "")) :=
    filterMap_strip_filter (pySplitComma s)
  refine ⟨h1, ?_⟩
  intro hall
  rw [h1, List.filter_eq_nil_iff]
  intro t ht
  simp only [List.mem_map] at ht
  obtain ⟨u, hu, rfl⟩ := ht
  simp [hall u hu]

theorem c10_tags_split_strip_drop_witness :
    (∀ t, t ∈ pySplitComma " , ,," → pyStrip t = "") ∧ parseTags " , ,," = [] :=
  ⟨by decide, (c10_tags_split_strip_drop " , ,,").2 (by decide)⟩

/-- C1, counterexample.  A run over `a.mp3` with a whitespace-only lyrics
file: the scan converts `a` (so `run_ffmpeg`'s
`mkdir(parents=True, exist_ok=True)` creates `converted_audio/` and with it
its parent `output_dir`), then drops the pair for blank lyrics and raises
`NoValidPairs` — so the error is raised, yet `output_dir` *was* created by
the run, contradicting the claim that it is neither created nor
overwritten. -/
theorem c1_outputDir_created_despite_raise :
    (build_dataset cfgOnlyBlankLyrics).result = none ∧
    (build_dataset cfgOnlyBlankLyrics).ffmpegCalls = ["a"] ∧
    outputDirCreated (build_dataset cfgOnlyBlankLyrics) = true := by
  decide

/-- C1, amended.  If the scan yields zero valid pairs, `build_dataset`
raises (`result = none`) and nothing is written to the dataset store
(`save_to_disk` and the builder's final `mkdir` never run); moreover, when
no conversion was attempted, `output_dir` is not created at all.  (When a
conversion was attempted, `run_ffmpeg` has already created `output_dir` as
the parent of `converted_audio/`.) -/
theorem c1_no_valid_pairs_raise (cfg : Config)
    (h : existsValidPair cfg = false) :
    (build_dataset cfg).result = none ∧
    (build_dataset cfg).saved = false ∧
    ((build_dataset cfg).ffmpegCalls = [] →
        outputDirCreated (build_dataset cfg) = false) := by
  have hrec : (runScan cfg).records = [] := (runScan_records_eq_nil_iff cfg).mpr h
  have hmk := (runScan_spec cfg).2.2.2.2.2.2
  rw [build_dataset_def]
  refine ⟨by simp [hrec], by simp [hrec], ?_⟩
  intro hcalls
  simp only at hcalls
  simp [outputDirCreated, hrec, hmk, hcalls]

theorem c1_no_valid_pairs_raise_witness :
    existsValidPair cfgNoLyrics = false ∧
    ((build_dataset cfgNoLyrics).result = none ∧
     (build_dataset cfgNoLyrics).saved = false ∧
     ((build_dataset cfgNoLyrics).ffmpegCalls = [] →
        outputDirCreated (build_dataset cfgNoLyrics) = false)) :=
  ⟨by decide, c1_no_valid_pairs_raise cfgNoLyrics (by decide)⟩

/-- C3, counterexample.  With audio files `a.mp3` and `a.b.mp3` (both valid
pairs), the run orders records by *filename* — `"a.b.mp3" < "a.mp3"` — so
the keys come out `["a.b", "a"]`, although lexicographically on base names
`"a" < "a.b"`: the records are not ordered by base name. -/
theorem c3_not_basename_order :
    ((build_dataset cfgDottedStems).result.getD []).map Record.keys = ["a.b", "a"] ∧
    strLeRel "a" "a.b" ∧ ¬ strLeRel "a.b" "a" := by
  decide

/-- C3, amended.  The record order is the lexicographic order of the full
audio *filename* (which agrees with base-name order whenever no listed stem
is an extension of another, as in `b.mp3`/`a.mp3`/`c.mp3`): the run is
invariant under permutations of the directory listing, the scan list is
sorted by filename, and the record keys are exactly the stems of the valid
files in that sorted order. -/
theorem c3_records_in_filename_order (cfg : Config) (l2 : List String)
    (h : cfg.audioListing.Perm l2) :
    build_dataset { cfg with audioListing := l2 } = build_dataset cfg ∧
    List.Sorted strLeRel (sortedFiles cfg) ∧
    ((build_dataset cfg).result.getD []).map Record.keys
      = ((sortedFiles cfg).filter (validFile cfg)).map pyStem := by
  refine ⟨build_dataset_perm_inv cfg l2 h, sortedFiles_sorted cfg, ?_⟩
  have hrec := (runScan_spec cfg).1
  rw [build_dataset_def]
  by_cases he : (runScan cfg).records.isEmpty
  · have h0 : (runScan cfg).records = [] := by simpa using he
    have h1 : ((sortedFiles cfg).filter (validFile cfg)).map (recOf cfg) = [] := by
      rw [← hrec]
      exact h0
    have h2 : (sortedFiles cfg).filter (validFile cfg) = [] :=
      List.map_eq_nil_iff.mp h1
    simp [he, h2]
  · simp only [he, Bool.false_eq_true, if_false, Option.getD_some]
    rw [hrec, List.map_map]
    rfl

theorem c3_records_in_filename_order_witness :
    cfgThreeSongs.audioListing.Perm ["c.mp3", "b.mp3", "a.mp3"] ∧
    (build_dataset { cfgThreeSongs with audioListing := ["c.mp3", "b.mp3", "a.mp3"] }
        = build_dataset cfgThreeSongs ∧
     List.Sorted strLeRel (sortedFiles cfgThreeSongs) ∧
     ((build_dataset cfgThreeSongs).result.getD []).map Record.keys
        = ((sortedFiles cfgThreeSongs).filter (validFile cfgThreeSongs)).map pyStem) ∧
    ((build_dataset cfgThreeSongs).result.getD []).map Record.keys = ["a", "b", "c"] :=
  ⟨by decide, c3_records_in_filename_order cfgThreeSongs _ (by decide), by decide⟩

/-- C2.  Every record in a persisted dataset came from a listed audio file
with that base name; its converted output exists after the run; the
conversion either was already cached or succeeded in this run; and the
lyrics file with the same base name exists with non-blank stripped contents
(which the record carries verbatim).  No partial record is persisted. -/
theorem c2_persisted_record_invariant (cfg : Config) (rs : List Record) (r : Record)
    (hres : (build_dataset cfg).result = some rs) (hr : r ∈ rs) :
    (∃ f, f ∈ cfg.audioListing ∧ globMatch cfg.audioExt f = true ∧ pyStem f = r.keys) ∧
    r.keys ∈ (build_dataset cfg).convertedAfter ∧
    (r.keys ∈ cfg.converted0 ∨ cfg.ffmpeg r.keys = none) ∧
    (∃ c, cfg.lyrics r.keys = some c ∧ pyStrip c ≠ "" ∧ r.norm_lyrics = pyStrip c) := by
  obtain ⟨hne, rfl⟩ := (build_result_some_iff cfg rs).mp hres
  obtain ⟨g, hg, hv, rfl⟩ := (mem_runScan_records cfg r).mp hr
  obtain ⟨c, hc, hcne, hconv⟩ := (validFile_iff cfg g).mp hv
  have hglob : g ∈ globFiles cfg := (mem_sortedFiles cfg g).mp hg
  rw [globFiles, List.mem_filter] at hglob
  have hca : (build_dataset cfg).convertedAfter = (runScan cfg).converted := by
    rw [build_dataset_def]
  refine ⟨⟨g, hglob.1, hglob.2, rfl⟩, ?_, hconv, c, hc, hcne, ?_⟩
  · rw [hca]
    exact (runScan_spec cfg).2.2.2.2.2.1 _
      ((mem_runScan_records cfg _).mpr ⟨g, hg, hv, rfl⟩)
  · show pyStrip ((cfg.lyrics (pyStem g)).getD "") = pyStrip c
    rw [hc]
    rfl

theorem c2_persisted_record_invariant_witness :
    (build_dataset cfgMissingSecond).result = some
      [{ keys := "song1", filename := "/data/out/converted_audio/song1.wav",
         tags := [], norm_lyrics := "hello world", recaption := none }] ∧
    ((∃ f, f ∈ cfgMissingSecond.audioListing ∧
        globMatch cfgMissingSecond.audioExt f = true ∧ pyStem f = "song1") ∧
     "song1" ∈ (build_dataset cfgMissingSecond).convertedAfter ∧
     ("song1" ∈ cfgMissingSecond.converted0 ∨ cfgMissingSecond.ffmpeg "song1" = none) ∧
     (∃ c, cfgMissingSecond.lyrics "song1" = some c ∧ pyStrip c ≠ "" ∧
        "hello world" = pyStrip c)) :=
  ⟨by decide,
   c2_persisted_record_invariant cfgMissingSecond
     [{ keys := "song1", filename := "/data/out/converted_audio/song1.wav",
        tags := [], norm_lyrics := "hello world", recaption := none }]
     { keys := "song1", filename := "/data/out/converted_audio/song1.wav",
       tags := [], norm_lyrics := "hello world", recaption := none }
     (by decide) (by decide)⟩

/-- C4.  A second run started from the converted files the first run left
behind never invokes the transcoder on a base whose converted file exists,
and returns exactly the first run's result (same records, same order; the
same `NoValidPairs` raise when the first run raised). -/
theorem c4_second_run_idempotent (cfg : Config) :
    (∀ b, b ∈ (build_dataset
        { cfg with converted0 := (build_dataset cfg).convertedAfter }).ffmpegCalls →
      b ∉ (build_dataset cfg).convertedAfter) ∧
    (build_dataset { cfg with converted0 := (build_dataset cfg).convertedAfter }).result
      = (build_dataset cfg).result := by
  have hca : (build_dataset cfg).convertedAfter = (runScan cfg).converted := by
    rw [build_dataset_def]
  rw [hca]
  constructor
  · intro b hb
    have hcalls : (build_dataset
          { cfg with converted0 := (runScan cfg).converted }).ffmpegCalls
        = (runScan { cfg with converted0 := (runScan cfg).converted }).ffmpegCalls := by
      rw [build_dataset_def]
    rw [hcalls] at hb
    exact ((runScan_spec { cfg with converted0 := (runScan cfg).converted
        }).2.2.2.1 b hb).2
  · rw [build_dataset_def, build_dataset_def, second_runScan_records cfg]

theorem c4_second_run_idempotent_witness :
    (∀ b, b ∈ (build_dataset
        { cfgMixedFailure with
          converted0 := (build_dataset cfgMixedFailure).convertedAfter }).ffmpegCalls →
      b ∉ (build_dataset cfgMixedFailure).convertedAfter) ∧
    (build_dataset
        { cfgMixedFailure with
          converted0 := (build_dataset cfgMixedFailure).convertedAfter }).result
      = (build_dataset cfgMixedFailure).result :=
  c4_second_run_idempotent cfgMixedFailure

/-- C5.  An audio file whose base name has no lyrics file is skipped: the
transcoder is never invoked on that base, and no persisted record carries
that key. -/
theorem c5_missing_transcript_skipped (cfg : Config) (f : String)
    (_hf : f ∈ cfg.audioListing) (hly : cfg.lyrics (pyStem f) = none) :
    pyStem f ∉ (build_dataset cfg).ffmpegCalls ∧
    ∀ rs, (build_dataset cfg).result = some rs → ∀ r, r ∈ rs → r.keys ≠ pyStem f := by
  have hcalls : (build_dataset cfg).ffmpegCalls = (runScan cfg).ffmpegCalls := by
    rw [build_dataset_def]
  constructor
  · rw [hcalls]
    intro hmem
    have hsome := ((runScan_spec cfg).2.2.2.1 _ hmem).1
    rw [hly] at hsome
    simp at hsome
  · intro rs hres r hr hkeq
    obtain ⟨hne, rfl⟩ := (build_result_some_iff cfg rs).mp hres
    obtain ⟨g, hg, hv, rfl⟩ := (mem_runScan_records cfg r).mp hr
    obtain ⟨c, hc, _, _⟩ := (validFile_iff cfg g).mp hv
    rw [show (recOf cfg g).keys = pyStem g from rfl] at hkeq
    rw [hkeq, hly] at hc
    cases hc

theorem c5_missing_transcript_skipped_witness :
    pyStem "song2.mp3" ∉ (build_dataset cfgMissingSecond).ffmpegCalls ∧
    ∀ rs, (build_dataset cfgMissingSecond).result = some rs →
      ∀ r, r ∈ rs → r.keys ≠ pyStem "song2.mp3" :=
  c5_missing_transcript_skipped cfgMissingSecond "song2.mp3" (by decide) (by decide)

/-- C6.  A lyrics file whose contents strip to the empty string excludes
its pair from the persisted records, whatever the conversion did. -/
theorem c6_blank_transcript_excluded (cfg : Config) (b c : String)
    (hly : cfg.lyrics b = some c) (hblank : pyStrip c = "") :
    ∀ rs, (build_dataset cfg).result = some rs → ∀ r, r ∈ rs → r.keys ≠ b := by
  intro rs hres r hr hkeq
  obtain ⟨hne, rfl⟩ := (build_result_some_iff cfg rs).mp hres
  obtain ⟨g, hg, hv, rfl⟩ := (mem_runScan_records cfg r).mp hr
  obtain ⟨c', hc', hcne, _⟩ := (validFile_iff cfg g).mp hv
  rw [show (recOf cfg g).keys = pyStem g from rfl] at hkeq
  rw [hkeq, hly] at hc'
  injection hc' with he
  rw [← he] at hcne
  exact hcne hblank

theorem c6_blank_transcript_excluded_witness :
    (build_dataset cfgBlankFirst).result = some
      [{ keys := "b", filename := "/data/out/converted_audio/b.wav",
         tags := [], norm_lyrics := "text", recaption := none }] ∧
    Record.keys { keys := "b", filename := "/data/out/converted_audio/b.wav",
                  tags := [], norm_lyrics := "text", recaption := none } ≠ "a" :=
  ⟨by decide,
   c6_blank_transcript_excluded cfgBlankFirst "a" " \t " (by decide) (by decide)
     [{ keys := "b", filename := "/data/out/converted_audio/b.wav",
        tags := [], norm_lyrics := "text", recaption := none }] (by decide)
     { keys := "b", filename := "/data/out/converted_audio/b.wav",
       tags := [], norm_lyrics := "text", recaption := none } (by decide)⟩

/-- C7.  A transcoder failure on one listed item is non-fatal: that item
yields no record, the `[error]` diagnostic carrying the captured
standard-error text is emitted, and every valid item still yields a record
in a successfully returned dataset (so the run succeeds whenever at least
one valid pair remains). -/
theorem c7_convert_failure_nonfatal (cfg : Config) (f err : String)
    (hf : f ∈ globFiles cfg) (herr : cfg.ffmpeg (pyStem f) = some err)
    (hly : (cfg.lyrics (pyStem f)).isSome = true)
    (hnc : pyStem f ∉ cfg.converted0) :
    (∀ rs, (build_dataset cfg).result = some rs → ∀ r, r ∈ rs → r.keys ≠ pyStem f) ∧
    Diag.convertFailed f err ∈ (build_dataset cfg).diags ∧
    (∀ g, g ∈ globFiles cfg → validFile cfg g = true →
        ∃ rs, (build_dataset cfg).result = some rs ∧ ∃ r, r ∈ rs ∧ r.keys = pyStem g) := by
  refine ⟨?_, ?_, ?_⟩
  · intro rs hres r hr hkeq
    obtain ⟨hne, rfl⟩ := (build_result_some_iff cfg rs).mp hres
    obtain ⟨g, hg, hv, rfl⟩ := (mem_runScan_records cfg r).mp hr
    obtain ⟨c, hc, hcne, hconv⟩ := (validFile_iff cfg g).mp hv
    rw [show (recOf cfg g).keys = pyStem g from rfl] at hkeq
    rw [hkeq] at hconv
    rcases hconv with h | h
    · exact hnc h
    · rw [herr] at h
      cases h
  · have hdiags : (build_dataset cfg).diags = (runScan cfg).diags := by
      rw [build_dataset_def]
    rw [hdiags]
    exact (runScan_spec cfg).2.2.2.2.1 f err
      ((mem_sortedFiles cfg f).mpr hf) herr hly hnc
  · intro g hg hv
    have hmem : recOf cfg g ∈ (runScan cfg).records :=
      (mem_runScan_records cfg _).mpr ⟨g, (mem_sortedFiles cfg g).mpr hg, hv, rfl⟩
    have hne : (runScan cfg).records ≠ [] := by
      intro h0
      rw [h0] at hmem
      cases hmem
    exact ⟨(runScan cfg).records, (build_result_some_iff cfg _).mpr ⟨hne, rfl⟩,
      recOf cfg g, hmem, rfl⟩

theorem c7_convert_failure_nonfatal_witness :
    Diag.convertFailed "x.mp3" "x.mp3: codec not found"
        ∈ (build_dataset cfgMixedFailure).diags ∧
    (build_dataset cfgMixedFailure).result = some
      [{ keys := "y", filename := "/data/out/converted_audio/y.wav",
         tags := ["rock"], norm_lyrics := "yy", recaption := none },
       { keys := "z", filename := "/data/out/converted_audio/z.wav",
         tags := ["rock"], norm_lyrics := "zz", recaption := none }] ∧
    Record.keys { keys := "y", filename := "/data/out/converted_audio/y.wav",
                  tags := ["rock"], norm_lyrics := "yy",
                  recaption := none } ≠ pyStem "x.mp3" :=
  ⟨(c7_convert_failure_nonfatal cfgMixedFailure "x.mp3" "x.mp3: codec not found"
      (by decide) (by decide) (by decide) (by decide)).2.1,
   by decide,
   (c7_convert_failure_nonfatal cfgMixedFailure "x.mp3" "x.mp3: codec not found"
      (by decide) (by decide) (by decide) (by decide)).1
     [{ keys := "y", filename := "/data/out/converted_audio/y.wav",
        tags := ["rock"], norm_lyrics := "yy", recaption := none },
      { keys := "z", filename := "/data/out/converted_audio/z.wav",
        tags := ["rock"], norm_lyrics := "zz", recaption := none }] (by decide)
     { keys := "y", filename := "/data/out/converted_audio/y.wav",
       tags := ["rock"], norm_lyrics := "yy", recaption := none } (by decide)⟩

/-- C8.  A persisted record carries the `recaption = {style: value}`
annotation exactly when the caller supplied a non-empty style value; for
`None` or the empty string the field is absent from every record. -/
theorem c8_recaption_iff_nonempty (cfg : Config) (rs : List Record) (r : Record)
    (hres : (build_dataset cfg).result = some rs) (hr : r ∈ rs) :
    (∀ s, cfg.recaption = some s → s ≠ "" → r.recaption = some ⟨s⟩) ∧
    (cfg.recaption = none ∨ cfg.recaption = some "" → r.recaption = none) := by
  obtain ⟨hne, rfl⟩ := (build_result_some_iff cfg rs).mp hres
  obtain ⟨g, hg, hv, rfl⟩ := (mem_runScan_records cfg r).mp hr
  have hfield : (recOf cfg g).recaption
      = (match cfg.recaption with
         | some s => if s = "" then none else some ⟨s⟩
         | none => none) := rfl
  constructor
  · intro s hs hneq
    rw [hfield, hs]
    simp [hneq]
  · rintro (h | h) <;> simp [hfield, h]

theorem c8_recaption_iff_nonempty_witness :
    (build_dataset cfgThreeSongs).result = some
      [{ keys := "a", filename := "/data/out/converted_audio/a.wav",
         tags := ["pop"], norm_lyrics := "la la", recaption := some ⟨"dreamy"⟩ },
       { keys := "b", filename := "/data/out/converted_audio/b.wav",
         tags := ["pop"], norm_lyrics := "bb", recaption := some ⟨"dreamy"⟩ },
       { keys := "c", filename := "/data/out/converted_audio/c.wav",
         tags := ["pop"], norm_lyrics := "cc", recaption := some ⟨"dreamy"⟩ }] ∧
    Record.recaption { keys := "a", filename := "/data/out/converted_audio/a.wav",
                       tags := ["pop"], norm_lyrics := "la la",
                       recaption := some ⟨"dreamy"⟩ }
      = some ⟨"dreamy"⟩ :=
  ⟨by decide,
   (c8_recaption_iff_nonempty cfgThreeSongs
      [{ keys := "a", filename := "/data/out/converted_audio/a.wav",
         tags := ["pop"], norm_lyrics := "la la", recaption := some ⟨"dreamy"⟩ },
       { keys := "b", filename := "/data/out/converted_audio/b.wav",
         tags := ["pop"], norm_lyrics := "bb", recaption := some ⟨"dreamy"⟩ },
       { keys := "c", filename := "/data/out/converted_audio/c.wav",
         tags := ["pop"], norm_lyrics := "cc", recaption := some ⟨"dreamy"⟩ }]
      { keys := "a", filename := "/data/out/converted_audio/a.wav",
        tags := ["pop"], norm_lyrics := "la la", recaption := some ⟨"dreamy"⟩ }
      (by decide) (by decide)).1
     "dreamy" rfl (by decide)⟩

end AceStep
